import Mathlib

/-!
Shallow embedding of `seismic_processor.py`: the waveform-loading,
phase-detection and event-association background threads
(`WaveformLoadThread.run`, `PhaseDetectionThread.run`,
`EventAssociationThread.run`) and the associator configuration
(`setup_associator`).

Times, sampling rates and probabilities are modelled as rationals; the
Qt signals emitted by a thread (`progressChanged`, `statusUpdate`,
`finished`, `error`) are modelled as a list of notifications produced by
the run, in emission order.  External collaborators (obspy `read`,
`Stream.filter`, the SeisBench classifier, the PyOcto associator) are
modelled as explicit fallible-function parameters, since their internals
are not part of this repository.
-/

/-- One obspy trace: channel id (`network.station.location.channel`),
start/end time in epoch seconds, and the sampling rate. Samples are not
modelled; slicing acts on the time interval. -/

structure Trace where
  id : String
  starttime : ℚ
  endtime : ℚ
  sampling_rate : ℚ
  deriving Repr, DecidableEq

/-- An obspy `Stream`: an ordered list of traces. -/

abbrev WStream := List Trace

/-- A signal emission from a worker thread: `progressChanged(pct)`,
`statusUpdate(msg)`, `finished(payload)` or `error(msg)`. -/

inductive Notif (α : Type) where
  | progress (pct : ℕ)
  | status (msg : String)
  | finished (payload : α)
  | error (msg : String)
  deriving Repr, DecidableEq

/-- The progress percentages of a notification list, in emission order. -/

def progressList {α : Type} (ns : List (Notif α)) : List ℕ :=
  ns.filterMap fun n => match n with
    | .progress p => some p
    | _ => none

/-- A terminal notification: `finished` (success) or `error` (failure). -/

def Notif.isTerminal {α : Type} : Notif α → Bool
  | .finished _ => true
  | .error _ => true
  | _ => false

/-! ### WaveformLoadThread -/

/-- A preprocessing operation applied to the stream during loading. -/

inductive PreStep where
  | detrend (kind : String)
  | bandpass (freqmin freqmax : ℚ)
  deriving Repr, DecidableEq

/-- The high cutoff computed in `WaveformLoadThread.run`:
`freqmax = min(20.0, nyquist - 0.1)` with `nyquist = sampling_rate / 2.0`,
the sampling rate taken from the first trace of the stream. -/

def freqmaxOf (sampling_rate : ℚ) : ℚ :=
  min 20 (sampling_rate / 2 - 1/10)

/-- Outcomes of the external obspy calls made by the load thread: `read`
may return a stream or raise, and `Stream.filter` may raise. -/

structure LoadEnv where
  readResult : Except String WStream
  filterRaises : Option String

/-- The observable behaviour of one `WaveformLoadThread.run` execution:
the emitted notifications and the preprocessing operations performed on
the stream, in order. -/

structure LoadTrace where
  notifs : List (Notif WStream)
  steps : List PreStep
  deriving Repr, DecidableEq

/-- Embedding of `WaveformLoadThread.run`.  The body emits two statuses
and progress 10, reads (with or without a time window), emits progress
50 and a status, detrends, takes the sampling rate of `stream[0]`
(an `IndexError` on an empty stream, caught by the outer handler),
bandpass-filters with `freqmin=1.0` and the computed `freqmax`, then
emits progress 100, a status and `finished(stream)`.  Any exception is
caught and reported through the `error` signal. -/

def waveformLoadRun (env : LoadEnv) (hasWindow : Bool) : LoadTrace :=
  let head : List (Notif WStream) :=
    [.status "正在加载波形数据...", .progress 10,
     .status (if hasWindow then "加载时间窗口内的数据..." else "加载整个波形文件...")]
  match env.readResult with
  | .error e => { notifs := head ++ [.error e], steps := [] }
  | .ok stream =>
    let mid : List (Notif WStream) := [.progress 50, .status "正在预处理波形数据..."]
    match stream with
    | [] =>
      { notifs := head ++ mid ++ [.error "list index out of range"],
        steps := [.detrend "linear"] }
    | tr :: _ =>
      let steps := [PreStep.detrend "linear", PreStep.bandpass 1 (freqmaxOf tr.sampling_rate)]
      match env.filterRaises with
      | some e => { notifs := head ++ mid ++ [.error e], steps := steps }
      | none =>
        { notifs := head ++ mid ++
            [.progress 100, .status "波形数据加载和预处理完成", .finished stream],
          steps := steps }

/-! ### PhaseDetectionThread -/

/-- A pick as returned by the SeisBench classifier: full trace id, absolute
pick start time, phase label, and peak confidence value. -/

structure CPick where
  trace_id : String
  start_time : ℚ
  phase : String
  peak_value : ℚ
  deriving Repr, DecidableEq

/-- A pick dictionary built by `PhaseDetectionThread.run`
(`{'time': ..., 'phase': ..., 'channel': ..., 'probability': ...}`). -/

structure Pick where
  time : ℚ
  phase : String
  channel : String
  probability : ℚ
  deriving Repr, DecidableEq

/-- Python `s.split('.')` for the one-character separator `'.'`
(`''.split('.') = ['']`, `'a..b'.split('.') = ['a','','b']`). -/

def pySplitDot (s : String) : List String :=
  (s.data.splitOn '.').map fun cs => String.mk cs

/-- `'.'.join(pick.trace_id.split('.', 2)[:2])`: the first two
dot-separated components of the trace id joined by a dot (the first two
elements of a maxsplit-2 split are the first two fields of the full
split). -/

def truncTraceId (s : String) : String :=
  String.intercalate "." ((pySplitDot s).take 2)

/-- The pick dictionary built from one classifier pick. -/

def mkPick (p : CPick) : Pick :=
  { time := p.start_time, phase := p.phase,
    channel := truncTraceId p.trace_id, probability := p.peak_value }

/-- `picks.sort(key=lambda x: x['time'])` — a stable sort ascending by
pick time. -/

def sortPicks (l : List Pick) : List Pick :=
  l.insertionSort fun a b => a.time ≤ b.time

/-- The progress value emitted after processing pick `i` in whole-stream
mode: `int((i + 1) / total_picks * 100)` (the loop body only runs when
`total_picks > 0`). -/

def wholeProgress (total i : ℕ) : ℕ := ((i + 1) * 100) / total

/-- Whole-stream branch of `PhaseDetectionThread.run`: one classifier
call over the entire stream; per-pick progress; final sort; `finished`.
A classifier exception propagates to the outer handler and is reported
through the `error` signal. -/

def phaseRunWhole (classify : WStream → Except String (List CPick))
    (stream : WStream) : List (Notif (List Pick)) :=
  Notif.status "正在检测相位..." ::
  match classify stream with
  | .error e => [.error e]
  | .ok cps =>
      ((List.range cps.length).map fun i => Notif.progress (wholeProgress cps.length i))
      ++ [.status "检测完成，共找到相位", .finished (sortPicks (cps.map mkPick))]

/-- `min(tr.stats.starttime for tr in stream)` (meaningful only for a
nonempty stream). -/

def streamStart : WStream → ℚ
  | [] => 0
  | tr :: rest => rest.foldl (fun a t => min a t.starttime) tr.starttime

/-- `max(tr.stats.endtime for tr in stream)` (meaningful only for a
nonempty stream). -/

def streamEnd : WStream → ℚ
  | [] => 0
  | tr :: rest => rest.foldl (fun a t => max a t.endtime) tr.endtime

/-- `total_duration = end_time - start_time`. -/

def totalDuration (s : WStream) : ℚ := streamEnd s - streamStart s

/-- `num_chunks = int(np.ceil(total_duration / self.chunk_size))`; a
Python `range(n)` over a nonpositive `n` is empty, matching `Int.toNat`. -/

def numChunks (s : WStream) (C : ℚ) : ℕ := (⌈totalDuration s / C⌉).toNat

/-- `chunk_start = start_time + chunk_idx * self.chunk_size`. -/

def chunkStartT (s : WStream) (C : ℚ) (i : ℕ) : ℚ := streamStart s + i * C

/-- `chunk_end = min(chunk_start + self.chunk_size, end_time)`. -/

def chunkEndT (s : WStream) (C : ℚ) (i : ℕ) : ℚ :=
  min (chunkStartT s C i + C) (streamEnd s)

/-- obspy `Trace.slice` to the window `[t1, t2]`; `Stream.slice` drops
traces with no samples in the window. -/

def sliceTrace (t1 t2 : ℚ) (tr : Trace) : Option Trace :=
  if tr.starttime ≤ t2 ∧ t1 ≤ tr.endtime then
    some { tr with starttime := max tr.starttime t1, endtime := min tr.endtime t2 }
  else none

/-- obspy `Stream.slice(t1, t2)`. -/

def sliceStream (s : WStream) (t1 t2 : ℚ) : WStream :=
  s.filterMap (sliceTrace t1 t2)

/-- The picks contributed by chunk `i`: none if the window is invalid
(`chunk_end <= chunk_start`), the slice is empty, or the classifier
raises (the per-chunk handler catches the exception); otherwise the
converted classifier picks. -/

def chunkPicks (classify : WStream → Except String (List CPick))
    (s : WStream) (C : ℚ) (i : ℕ) : List Pick :=
  let cs := chunkStartT s C i
  let ce := chunkEndT s C i
  if ce ≤ cs then []
  else
    match classify (sliceStream s cs ce) with
    | .ok cps => if (sliceStream s cs ce).length = 0 then [] else cps.map mkPick
    | .error _ => []

/-- The notifications emitted while processing chunk `i`.  An invalid
window hits `continue`, which also skips that iteration's progress
emission; every other outcome (empty slice, classifier exception caught
by the per-chunk handler, success) falls through to the progress
emission. -/

def chunkNotifs (classify : WStream → Except String (List CPick))
    (s : WStream) (C : ℚ) (i : ℕ) : List (Notif (List Pick)) :=
  let cs := chunkStartT s C i
  let ce := chunkEndT s C i
  if ce ≤ cs then [Notif.status "跳过无效时间块"]
  else
    Notif.status "处理时间块" ::
    (if (sliceStream s cs ce).length = 0 then [Notif.status "块没有可用数据，跳过"]
     else
       Notif.status "检测块中的相位" ::
       (match classify (sliceStream s cs ce) with
        | .ok _ => []
        | .error e => [Notif.status ("处理块时出错: " ++ e ++ "，跳过此块")]))
    ++ [Notif.progress (((i + 1) * 100) / numChunks s C)]

/-- All picks accumulated over the chunk loop. -/

def chunkAllPicks (classify : WStream → Except String (List CPick))
    (s : WStream) (C : ℚ) : List Pick :=
  ((List.range (numChunks s C)).map (chunkPicks classify s C)).flatten

/-- Chunked branch of `PhaseDetectionThread.run`: an empty stream is a
reportable failure; otherwise the stream's time span is cut into
`numChunks` windows processed independently, and the accumulated picks
are sorted and delivered through `finished`. -/

def phaseRunChunked (classify : WStream → Except String (List CPick))
    (s : WStream) (C : ℚ) : List (Notif (List Pick)) :=
  if s.length = 0 then [Notif.error "波形数据为空，无法进行分块处理"]
  else
    Notif.status "准备分块处理..." :: Notif.status "将分块进行处理..." ::
    ((List.range (numChunks s C)).map (chunkNotifs classify s C)).flatten
    ++ [Notif.status "检测完成，共找到相位",
        Notif.finished (sortPicks (chunkAllPicks classify s C))]

/-- Embedding of `PhaseDetectionThread.run`: `if not self.chunk_mode or
not self.chunk_size` run whole-stream, else chunked (`chunk_size = 0`
models a falsy `chunk_size`, i.e. `None` or `0`). -/

def phaseDetectionRun (classify : WStream → Except String (List CPick))
    (stream : WStream) (chunk_mode : Bool) (chunk_size : ℚ) :
    List (Notif (List Pick)) :=
  if chunk_mode = false ∨ chunk_size = 0 then phaseRunWhole classify stream
  else phaseRunChunked classify stream chunk_size

/-! ### EventAssociationThread -/

/-- One row of the station table (`stations_df`): the `id` column (of
the form `NET.STA.`) plus coordinates. -/

structure StationRow where
  id : String
  latitude : ℚ
  longitude : ℚ
  elevation : ℚ
  deriving Repr, DecidableEq

/-- The station table dataframe. -/

abbrev StationDF := List StationRow

/-- One row of the PyOcto picks dataframe built by the thread (`time` is
the pick's `UTCDateTime.timestamp`, already rational here). -/

structure PickRow where
  station : String
  phase : String
  time : ℚ
  probability : ℚ
  deriving Repr, DecidableEq

/-- One row of the events dataframe: origin time, local coordinates,
pick counts, and (after `transform_events`) geographic coordinates. -/

structure EventRow where
  time : ℚ
  x : ℚ
  y : ℚ
  z : ℚ
  pick_count : ℕ
  p_s_count : ℕ
  latitude : ℚ
  longitude : ℚ
  deriving Repr, DecidableEq

/-- One row of the assignments dataframe. -/

structure AssignRow where
  event_idx : ℕ
  station : String
  phase : String
  time : ℚ
  residual : ℚ
  deriving Repr, DecidableEq

/-- `station_parts = pick['channel'].split('.')` must have at least two
parts, otherwise `station_parts[1]` raises `IndexError` (caught by the
outer handler). -/

def channelOk (channel : String) : Bool := 2 ≤ (pySplitDot channel).length

/-- `station_id = f"{station_parts[0]}.{station_parts[1]}."` — note the
trailing dot appended after the second component. -/

def stationIdOf (channel : String) : String :=
  ((pySplitDot channel).headD "") ++ "." ++ ((pySplitDot channel).getD 1 "") ++ "."

/-- The picks kept by the station filter
(`if station_id in valid_stations`). -/

def filteredPicks (picks : List Pick) (valid : List String) : List Pick :=
  picks.filter fun p => valid.contains (stationIdOf p.channel)

/-- The rows of the PyOcto picks dataframe, in pick order (the four
per-field appends of the loop amount to one row per kept pick). -/

def pyoctoPickRows (picks : List Pick) (valid : List String) : List PickRow :=
  (filteredPicks picks valid).map fun p =>
    { station := stationIdOf p.channel, phase := p.phase,
      time := p.time, probability := p.probability }

/-- The `missing_stations` set: the derived ids of the excluded picks
(a Python `set`, modelled as a duplicate-free list). -/

def missingStations (picks : List Pick) (valid : List String) : List String :=
  (picks.filterMap fun p =>
    if valid.contains (stationIdOf p.channel) then none
    else some (stationIdOf p.channel)).dedup

/-- The observable behaviour of one `EventAssociationThread.run`: the
emitted notifications, plus the picks dataframe passed to the
`associate` clustering call when that call was made. -/

structure AssocTrace where
  notifs : List (Notif (List EventRow × List AssignRow))
  clusterInput : Option (List PickRow)

/-- Embedding of `EventAssociationThread.run`.  `associate` and
`transform_events` are the external PyOcto calls (fallible).  The run
filters picks against the station-id set, fails if none remain, calls
`associate` on the kept picks, transforms coordinates when events were
found, and delivers `(events_df, assignments_df)` through `finished`;
any exception is caught and reported through the `error` signal. -/

def assocRun
    (associate : List PickRow → StationDF → Except String (List EventRow × List AssignRow))
    (transform_events : List EventRow → Except String (List EventRow))
    (picks : List Pick) (stations_df : StationDF) : AssocTrace :=
  let head : List (Notif (List EventRow × List AssignRow)) :=
    [.status "准备关联数据...", .progress 10, .status "处理拾取数据...", .progress 20]
  let valid := stations_df.map (fun r => r.id)
  if ¬ picks.all (fun p => channelOk p.channel) then
    { notifs := head ++ [.error "list index out of range"], clusterInput := none }
  else
    let fp := filteredPicks picks valid
    if fp.length = 0 then
      { notifs := head ++ [.error "所有拾取都被过滤掉了，没有拾取与台站信息匹配"],
        clusterInput := none }
    else
      let pdf := pyoctoPickRows picks valid
      let head2 := head ++ [Notif.status "开始关联拾取点...", .progress 30]
      match associate pdf stations_df with
      | .error e => { notifs := head2 ++ [.error e], clusterInput := some pdf }
      | .ok (events_df, assignments_df) =>
        let head3 := head2 ++ [Notif.status "转换事件坐标...", .progress 80]
        if events_df.length ≠ 0 then
          match transform_events events_df with
          | .error e => { notifs := head3 ++ [.error e], clusterInput := some pdf }
          | .ok events2 =>
            { notifs := head3 ++ [.status "成功关联地震事件", .progress 100,
                .finished (events2, assignments_df)], clusterInput := some pdf }
        else
          { notifs := head3 ++ [.status "未找到关联事件", .progress 100,
              .finished (events_df, assignments_df)], clusterInput := some pdf }

/-! ### setup_associator -/

/-- PyOcto `VelocityModel0D` configuration parameters. -/

structure VelocityModel0D where
  p_velocity : ℚ
  s_velocity : ℚ
  tolerance : ℚ
  association_cutoff_distance : ℚ
  deriving Repr, DecidableEq

/-- The parameters passed to `OctoAssociator.from_area`. -/

structure AssociatorCfg where
  lat : ℚ × ℚ
  lon : ℚ × ℚ
  zlim : ℚ × ℚ
  time_before : ℚ
  velocity_model : Option VelocityModel0D
  n_picks : ℕ
  n_p_and_s_picks : ℕ
  deriving Repr, DecidableEq

/-- Embedding of `setup_associator`: the primary path configures the
associator with the explicit `VelocityModel0D`; if an exception is
raised, the fallback path configures the same area and thresholds
without the velocity model; if that also raises, `(None, msg)` is
returned.  `firstOk`/`secondOk` model whether the respective external
constructor calls succeed. -/

def setup_associator (firstOk secondOk : Bool) : Option AssociatorCfg :=
  if firstOk then
    some { lat := (-25, -18), lon := (-71.5, -68), zlim := (0, 200),
           time_before := 300,
           velocity_model := some ⟨7, 4, 2, 250⟩,
           n_picks := 10, n_p_and_s_picks := 4 }
  else if secondOk then
    some { lat := (-25, -18), lon := (-71.5, -68), zlim := (0, 200),
           time_before := 300, velocity_model := none,
           n_picks := 10, n_p_and_s_picks := 4 }
  else none

/-- Contract of the external PyOcto `associate` (spec §4.3): every
emitted event satisfies the configured minimum pick count and minimum
combined P+S pick count. -/

def RespectsThresholds
    (associate : List PickRow → StationDF → Except String (List EventRow × List AssignRow))
    (cfg : AssociatorCfg) : Prop :=
  ∀ pdf sdf evs asg, associate pdf sdf = .ok (evs, asg) →
    ∀ ev ∈ evs, cfg.n_picks ≤ ev.pick_count ∧ cfg.n_p_and_s_picks ≤ ev.p_s_count

/-- Contract of the external `associate`: assignment rows only reference
stations occurring in the input picks dataframe. -/

def AssignsFromInput
    (associate : List PickRow → StationDF → Except String (List EventRow × List AssignRow)) :
    Prop :=
  ∀ pdf sdf evs asg, associate pdf sdf = .ok (evs, asg) →
    ∀ row ∈ asg, row.station ∈ pdf.map (fun r => r.station)

/-- Contract of the external `transform_events`: it only rewrites
coordinates, preserving each event's pick counts. -/

def PreservesCounts (transform_events : List EventRow → Except String (List EventRow)) :
    Prop :=
  ∀ evs evs', transform_events evs = .ok evs' →
    ∀ ev' ∈ evs', ∃ ev ∈ evs, ev'.pick_count = ev.pick_count ∧ ev'.p_s_count = ev.p_s_count

/-! ### Helper lemmas -/

instance : IsTotal Pick (fun a b : Pick => a.time ≤ b.time) :=
  ⟨fun a b => le_total a.time b.time⟩

instance : IsTrans Pick (fun a b : Pick => a.time ≤ b.time) :=
  ⟨fun _ _ _ => le_trans⟩

/-- `N mod C` for rationals: `N - C * ⌊N / C⌋`. -/

def ratMod (a b : ℚ) : ℚ := a - b * ⌊a / b⌋

/-- The §5 ordering contract for one background task: the emitted
progress percentages are non-decreasing, exactly one terminal
notification is emitted, and it is the last notification. -/

def WellOrderedNotifs {α : Type} (ns : List (Notif α)) : Prop :=
  List.Sorted (· ≤ ·) (progressList ns) ∧
  (ns.filter fun n => n.isTerminal).length = 1 ∧
  ∃ tn, ns.getLast? = some tn ∧ tn.isTerminal = true

/-! ### Theorems -/

/-- C5: for every sampling rate `fs` (of the first trace of a
successfully read, nonempty stream), the loader detrends linearly and
then requests a bandpass with low cutoff 1.0 Hz and high cutoff
`min(20.0, fs/2 - 0.1)`, which is always strictly below the Nyquist
frequency `fs/2`. -/
theorem C5_loader_freqmax (env : LoadEnv) (hw : Bool) (tr : Trace) (rest : WStream)
    (hread : env.readResult = .ok (tr :: rest)) :
    (waveformLoadRun env hw).steps
      = [PreStep.detrend "linear",
         PreStep.bandpass 1 (min 20 (tr.sampling_rate / 2 - 1/10))]
    ∧ min 20 (tr.sampling_rate / 2 - 1/10) < tr.sampling_rate / 2 := by
  constructor
  · unfold waveformLoadRun
    rw [hread]
    cases env.filterRaises <;> simp [freqmaxOf]
  · exact lt_of_le_of_lt (min_le_right _ _) (by linarith)

/-- Witness for C5 at a concrete 100 Hz stream. -/
theorem C5_loader_freqmax_witness :
    (waveformLoadRun ⟨Except.ok [⟨"NET.STA.00.HHZ", 0, 100, 100⟩], none⟩ false).steps
      = [PreStep.detrend "linear",
         PreStep.bandpass 1 (min 20 ((100:ℚ) / 2 - 1/10))]
    ∧ min 20 ((100:ℚ) / 2 - 1/10) < (100:ℚ) / 2 :=
  C5_loader_freqmax ⟨Except.ok [⟨"NET.STA.00.HHZ", 0, 100, 100⟩], none⟩ false
    ⟨"NET.STA.00.HHZ", 0, 100, 100⟩ [] rfl

lemma mem_filteredPicks {picks : List Pick} {valid : List String} {p : Pick} :
    p ∈ filteredPicks picks valid ↔ p ∈ picks ∧ stationIdOf p.channel ∈ valid := by
  simp [filteredPicks]

lemma stationIdOf_form {channel : String} (h : channelOk channel = true) :
    ∃ p0 p1 rest, pySplitDot channel = p0 :: p1 :: rest ∧
      stationIdOf channel = p0 ++ "." ++ p1 ++ "." := by
  unfold channelOk at h
  match hsp : pySplitDot channel with
  | [] => rw [hsp] at h; simp at h
  | [a] => rw [hsp] at h; simp at h
  | a :: b :: rest =>
      exact ⟨a, b, rest, rfl, by simp [stationIdOf, hsp]⟩

lemma stationIdOf_trailing {channel : String} (h : channelOk channel = true) :
    ∃ x, stationIdOf channel = x ++ "." := by
  obtain ⟨p0, p1, _, _, hid⟩ := stationIdOf_form h
  exact ⟨p0 ++ "." ++ p1, hid⟩

lemma assocRun_clusterInput_eq {a : List PickRow → StationDF → Except String (List EventRow × List AssignRow)}
    {t : List EventRow → Except String (List EventRow)}
    {picks : List Pick} {sdf : StationDF} {pdf : List PickRow}
    (h : (assocRun a t picks sdf).clusterInput = some pdf) :
    pdf = pyoctoPickRows picks (sdf.map fun r => r.id) := by
  unfold assocRun at h
  split at h
  · simp at h
  · dsimp only at h
    split at h
    · simp at h
    · split at h
      · simp at h
        exact h.symm
      · split at h
        · split at h
          · simp at h
            exact h.symm
          · simp at h
            exact h.symm
        · simp at h
          exact h.symm

lemma assocRun_finished {a : List PickRow → StationDF → Except String (List EventRow × List AssignRow)}
    {t : List EventRow → Except String (List EventRow)}
    {picks : List Pick} {sdf : StationDF} {evs : List EventRow} {asg : List AssignRow}
    (h : Notif.finished (evs, asg) ∈ (assocRun a t picks sdf).notifs) :
    ∃ evs0, a (pyoctoPickRows picks (sdf.map fun r => r.id)) sdf = .ok (evs0, asg) ∧
      (evs = evs0 ∨ t evs0 = .ok evs) := by
  unfold assocRun at h
  split at h
  · simp at h
  · dsimp only at h
    split at h
    · simp at h
    · rename_i hall hfp
      split at h
      · simp at h
      · rename_i res events_df assignments_df heq
        split at h
        · split at h
          · simp at h
          · rename_i events2 heq2
            simp at h
            obtain ⟨h1, h2⟩ := h
            exact ⟨events_df, by rw [h2]; exact heq, Or.inr (by rw [h1]; exact heq2)⟩
        · simp at h
          obtain ⟨h1, h2⟩ := h
          exact ⟨events_df, by rw [h2]; exact heq, Or.inl h1⟩

lemma pyoctoPickRows_station_mem {picks : List Pick} {valid : List String}
    {r : PickRow} (h : r ∈ pyoctoPickRows picks valid) : r.station ∈ valid := by
  unfold pyoctoPickRows at h
  obtain ⟨q, hq, hr⟩ := List.mem_map.mp h
  have := (mem_filteredPicks.mp hq).2
  rw [← hr]
  exact this

/-- C10: during association the identifier matched against the station
table is not the raw channel but `station_parts[0] + "." +
station_parts[1] + "."` — the first two dot-separated components of the
channel followed by a trailing dot; a pick is kept by the filter iff
that trailing-dot identifier occurs in the station table's `id` column;
the picks dataframe passed to clustering holds exactly the kept picks
under that identifier; and a station table none of whose ids end in a
dot filters out every pick. -/
theorem C10_trailing_dot_station_id
    (a : List PickRow → StationDF → Except String (List EventRow × List AssignRow))
    (t : List EventRow → Except String (List EventRow))
    (picks : List Pick) (sdf : StationDF)
    (hok : picks.all (fun p => channelOk p.channel) = true) :
    (∀ p ∈ picks, ∃ p0 p1 rest, pySplitDot p.channel = p0 :: p1 :: rest ∧
        stationIdOf p.channel = p0 ++ "." ++ p1 ++ ".") ∧
    (∀ p ∈ picks,
        p ∈ filteredPicks picks (sdf.map fun r => r.id) ↔
          stationIdOf p.channel ∈ sdf.map fun r => r.id) ∧
    (∀ pdf, (assocRun a t picks sdf).clusterInput = some pdf →
        pdf = (filteredPicks picks (sdf.map fun r => r.id)).map fun p =>
          { station := stationIdOf p.channel, phase := p.phase,
            time := p.time, probability := p.probability }) ∧
    ((∀ i ∈ sdf.map (fun r => r.id), ¬ ∃ x, i = x ++ ".") →
        filteredPicks picks (sdf.map fun r => r.id) = []) := by
  rw [List.all_eq_true] at hok
  refine ⟨?_, ?_, ?_, ?_⟩
  · intro p hp
    exact stationIdOf_form (hok p hp)
  · intro p hp
    rw [mem_filteredPicks]
    exact ⟨fun h => h.2, fun h => ⟨hp, h⟩⟩
  · intro pdf h
    exact assocRun_clusterInput_eq h
  · intro hno
    apply List.filter_eq_nil_iff.mpr
    intro p hp
    simp only [Bool.not_eq_true]
    by_contra hcon
    rw [Bool.not_eq_false] at hcon
    have hmem : stationIdOf p.channel ∈ sdf.map fun r => r.id := by
      simpa using hcon
    exact hno _ hmem (stationIdOf_trailing (hok p hp))

/-- Witness for C10: one pick on channel `AA.BB`, one station with id
`AA.BB.`. -/
theorem C10_trailing_dot_station_id_witness :
    (∀ p ∈ [Pick.mk 0 "P" "AA.BB" 1], ∃ p0 p1 rest,
        pySplitDot p.channel = p0 :: p1 :: rest ∧
        stationIdOf p.channel = p0 ++ "." ++ p1 ++ ".") ∧
    (∀ p ∈ [Pick.mk 0 "P" "AA.BB" 1],
        p ∈ filteredPicks [Pick.mk 0 "P" "AA.BB" 1]
            (([StationRow.mk "AA.BB." 1 2 3]).map fun r => r.id) ↔
          stationIdOf p.channel ∈ ([StationRow.mk "AA.BB." 1 2 3]).map fun r => r.id) ∧
    (∀ pdf, (assocRun (fun _ _ => Except.ok ([], [])) (fun e => Except.ok e)
          [Pick.mk 0 "P" "AA.BB" 1] [StationRow.mk "AA.BB." 1 2 3]).clusterInput = some pdf →
        pdf = (filteredPicks [Pick.mk 0 "P" "AA.BB" 1]
            (([StationRow.mk "AA.BB." 1 2 3]).map fun r => r.id)).map fun p =>
          { station := stationIdOf p.channel, phase := p.phase,
            time := p.time, probability := p.probability }) ∧
    ((∀ i ∈ ([StationRow.mk "AA.BB." 1 2 3]).map (fun r => r.id), ¬ ∃ x, i = x ++ ".") →
        filteredPicks [Pick.mk 0 "P" "AA.BB" 1]
          (([StationRow.mk "AA.BB." 1 2 3]).map fun r => r.id) = []) :=
  C10_trailing_dot_station_id (fun _ _ => Except.ok ([], [])) (fun e => Except.ok e)
    [Pick.mk 0 "P" "AA.BB" 1] [StationRow.mk "AA.BB." 1 2 3] (by decide)

/-- C1: a pick whose derived station identifier is absent from the
station table's id set is excluded from the filtered pick set, never
appears in the picks dataframe passed to the clustering call, its
station never appears in the delivered assignment table (given the
external associator's contract that assignments only reference stations
of its input picks), and its identifier is collected in
`missing_stations` for diagnostics. -/
theorem C1_unknown_station_excluded
    (a : List PickRow → StationDF → Except String (List EventRow × List AssignRow))
    (t : List EventRow → Except String (List EventRow))
    (picks : List Pick) (sdf : StationDF)
    (hassign : AssignsFromInput a)
    (p : Pick) (hp : p ∈ picks)
    (habsent : stationIdOf p.channel ∉ sdf.map fun r => r.id) :
    p ∉ filteredPicks picks (sdf.map fun r => r.id) ∧
    (∀ pdf, (assocRun a t picks sdf).clusterInput = some pdf →
        ∀ row ∈ pdf, row.station ≠ stationIdOf p.channel) ∧
    (∀ evs asg, Notif.finished (evs, asg) ∈ (assocRun a t picks sdf).notifs →
        ∀ row ∈ asg, row.station ≠ stationIdOf p.channel) ∧
    stationIdOf p.channel ∈ missingStations picks (sdf.map fun r => r.id) := by
  refine ⟨?_, ?_, ?_, ?_⟩
  · intro hmem
    exact habsent (mem_filteredPicks.mp hmem).2
  · intro pdf h row hrow heq
    rw [assocRun_clusterInput_eq h] at hrow
    have hst : row.station ∈ sdf.map fun r => r.id := pyoctoPickRows_station_mem hrow
    rw [heq] at hst
    exact habsent hst
  · intro evs asg h row hrow heq
    obtain ⟨evs0, hok2, _⟩ := assocRun_finished h
    have hst := hassign _ _ _ _ hok2 row hrow
    obtain ⟨r, hr, hrs⟩ := List.mem_map.mp hst
    have hmem : r.station ∈ sdf.map fun x => x.id := pyoctoPickRows_station_mem hr
    rw [hrs, heq] at hmem
    exact habsent hmem
  · unfold missingStations
    rw [List.mem_dedup, List.mem_filterMap]
    refine ⟨p, hp, ?_⟩
    simp only [ite_eq_right_iff, reduceCtorEq, imp_false, Bool.not_eq_true]
    simpa using habsent

/-- Witness for C1: two picks, one on the unknown station `CC.DD`. -/
theorem C1_unknown_station_excluded_witness :
    Pick.mk 5 "S" "CC.DD" 1 ∉
      filteredPicks [Pick.mk 0 "P" "AA.BB" 1, Pick.mk 5 "S" "CC.DD" 1]
        (([StationRow.mk "AA.BB." 1 2 3]).map fun r => r.id) ∧
    (∀ pdf, (assocRun (fun _ _ => Except.ok ([], [])) (fun e => Except.ok e)
          [Pick.mk 0 "P" "AA.BB" 1, Pick.mk 5 "S" "CC.DD" 1]
          [StationRow.mk "AA.BB." 1 2 3]).clusterInput = some pdf →
        ∀ row ∈ pdf, row.station ≠ stationIdOf (Pick.mk 5 "S" "CC.DD" 1).channel) ∧
    (∀ evs asg, Notif.finished (evs, asg) ∈
          (assocRun (fun _ _ => Except.ok ([], [])) (fun e => Except.ok e)
            [Pick.mk 0 "P" "AA.BB" 1, Pick.mk 5 "S" "CC.DD" 1]
            [StationRow.mk "AA.BB." 1 2 3]).notifs →
        ∀ row ∈ asg, row.station ≠ stationIdOf (Pick.mk 5 "S" "CC.DD" 1).channel) ∧
    stationIdOf (Pick.mk 5 "S" "CC.DD" 1).channel ∈
      missingStations [Pick.mk 0 "P" "AA.BB" 1, Pick.mk 5 "S" "CC.DD" 1]
        (([StationRow.mk "AA.BB." 1 2 3]).map fun r => r.id) := by
  have hassign : AssignsFromInput
      (fun (_ : List PickRow) (_ : StationDF) =>
        (Except.ok ([], []) : Except String (List EventRow × List AssignRow))) := by
    intro pdf sdf evs asg h row hrow
    simp only [Except.ok.injEq, Prod.mk.injEq] at h
    rw [← h.2] at hrow
    simp at hrow
  exact C1_unknown_station_excluded (fun _ _ => Except.ok ([], [])) (fun e => Except.ok e)
    [Pick.mk 0 "P" "AA.BB" 1, Pick.mk 5 "S" "CC.DD" 1] [StationRow.mk "AA.BB." 1 2 3]
    hassign (Pick.mk 5 "S" "CC.DD" 1) (by simp) (by decide)

/-- C2: if zero picks remain after station filtering, the association
thread emits the failure signal as its last notification, never invokes
the clustering call, and never emits a success result. -/
theorem C2_zero_picks_failure
    (a : List PickRow → StationDF → Except String (List EventRow × List AssignRow))
    (t : List EventRow → Except String (List EventRow))
    (picks : List Pick) (sdf : StationDF)
    (hok : picks.all (fun p => channelOk p.channel) = true)
    (hempty : filteredPicks picks (sdf.map fun r => r.id) = []) :
    (assocRun a t picks sdf).notifs =
      [Notif.status "准备关联数据...", Notif.progress 10, Notif.status "处理拾取数据...",
       Notif.progress 20, Notif.error "所有拾取都被过滤掉了，没有拾取与台站信息匹配"] ∧
    (assocRun a t picks sdf).clusterInput = none ∧
    ∀ pay, Notif.finished pay ∉ (assocRun a t picks sdf).notifs := by
  have hn : (assocRun a t picks sdf).notifs =
      [Notif.status "准备关联数据...", Notif.progress 10, Notif.status "处理拾取数据...",
       Notif.progress 20, Notif.error "所有拾取都被过滤掉了，没有拾取与台站信息匹配"] := by
    unfold assocRun
    simp [hok, hempty]
  have hc : (assocRun a t picks sdf).clusterInput = none := by
    unfold assocRun
    simp [hok, hempty]
  refine ⟨hn, hc, ?_⟩
  intro pay hmem
  rw [hn] at hmem
  simp at hmem

/-- Witness for C2: one pick whose station is not in the table. -/
theorem C2_zero_picks_failure_witness :
    (assocRun (fun _ _ => Except.ok ([], [])) (fun e => Except.ok e)
        [Pick.mk 0 "P" "AA.BB" 1] [StationRow.mk "XX.YY." 0 0 0]).notifs =
      [Notif.status "准备关联数据...", Notif.progress 10, Notif.status "处理拾取数据...",
       Notif.progress 20, Notif.error "所有拾取都被过滤掉了，没有拾取与台站信息匹配"] ∧
    (assocRun (fun _ _ => Except.ok ([], [])) (fun e => Except.ok e)
        [Pick.mk 0 "P" "AA.BB" 1] [StationRow.mk "XX.YY." 0 0 0]).clusterInput = none ∧
    ∀ pay, Notif.finished pay ∉
      (assocRun (fun _ _ => Except.ok ([], [])) (fun e => Except.ok e)
        [Pick.mk 0 "P" "AA.BB" 1] [StationRow.mk "XX.YY." 0 0 0]).notifs :=
  C2_zero_picks_failure (fun _ _ => Except.ok ([], [])) (fun e => Except.ok e)
    [Pick.mk 0 "P" "AA.BB" 1] [StationRow.mk "XX.YY." 0 0 0] (by decide) (by decide)

/-- C8: both configuration paths of `setup_associator` (with and without
the explicit velocity model) pass the same thresholds `n_picks = 10` and
`n_p_and_s_picks = 4`, and — given the external associator's contract
that emitted events respect the configured thresholds and that the
coordinate transform preserves pick counts — every event in a delivered
events table has total pick count ≥ 10 and combined P+S pick count
≥ 4. -/
theorem C8_event_thresholds :
    (∀ fOk sOk cfg, setup_associator fOk sOk = some cfg →
        cfg.n_picks = 10 ∧ cfg.n_p_and_s_picks = 4) ∧
    (∀ fOk sOk cfg
        (a : List PickRow → StationDF → Except String (List EventRow × List AssignRow))
        (t : List EventRow → Except String (List EventRow))
        (picks : List Pick) (sdf : StationDF) (evs : List EventRow) (asg : List AssignRow),
        setup_associator fOk sOk = some cfg →
        RespectsThresholds a cfg → PreservesCounts t →
        Notif.finished (evs, asg) ∈ (assocRun a t picks sdf).notifs →
        ∀ ev ∈ evs, 10 ≤ ev.pick_count ∧ 4 ≤ ev.p_s_count) := by
  have hthr : ∀ fOk sOk cfg, setup_associator fOk sOk = some cfg →
      cfg.n_picks = 10 ∧ cfg.n_p_and_s_picks = 4 := by
    intro fOk sOk cfg h
    unfold setup_associator at h
    split at h
    · cases h
      exact ⟨rfl, rfl⟩
    · split at h
      · cases h
        exact ⟨rfl, rfl⟩
      · simp at h
  refine ⟨hthr, ?_⟩
  intro fOk sOk cfg a t picks sdf evs asg hsetup hresp hpres hfin ev hev
  obtain ⟨h10, h4⟩ := hthr fOk sOk cfg hsetup
  obtain ⟨evs0, hok2, hcase⟩ := assocRun_finished hfin
  rcases hcase with heq | htr
  · subst heq
    have h := hresp _ _ _ _ hok2 ev hev
    rw [h10, h4] at h
    exact h
  · obtain ⟨ev0, hev0, hc1, hc2⟩ := hpres _ _ htr ev hev
    have h := hresp _ _ _ _ hok2 ev0 hev0
    rw [h10, h4] at h
    constructor
    · rw [hc1]
      exact h.1
    · rw [hc2]
      exact h.2

/-- Witness for C8: a contract-respecting stub associator that emits one
event with 12 picks, 5 of them P+S pairs. -/
theorem C8_event_thresholds_witness :
    10 ≤ (EventRow.mk 0 0 0 0 12 5 0 0).pick_count ∧
    4 ≤ (EventRow.mk 0 0 0 0 12 5 0 0).p_s_count := by
  have hresp : RespectsThresholds
      (fun _ _ => Except.ok ([EventRow.mk 0 0 0 0 12 5 0 0], []))
      { lat := (-25, -18), lon := (-71.5, -68), zlim := (0, 200),
        time_before := 300, velocity_model := some ⟨7, 4, 2, 250⟩,
        n_picks := 10, n_p_and_s_picks := 4 } := by
    intro pdf sdf evs asg h ev hev
    simp only [Except.ok.injEq, Prod.mk.injEq] at h
    rw [← h.1] at hev
    simp at hev
    subst hev
    exact ⟨by decide, by decide⟩
  have hpres : PreservesCounts
      (fun e => (Except.ok e : Except String (List EventRow))) := by
    intro evs evs' h ev' hev'
    simp only [Except.ok.injEq] at h
    rw [← h] at hev'
    exact ⟨ev', hev', rfl, rfl⟩
  have hfin : Notif.finished ([EventRow.mk 0 0 0 0 12 5 0 0], ([] : List AssignRow)) ∈
      (assocRun (fun _ _ => Except.ok ([EventRow.mk 0 0 0 0 12 5 0 0], []))
        (fun e => Except.ok e)
        [Pick.mk 0 "P" "AA.BB" 1] [StationRow.mk "AA.BB." 1 2 3]).notifs := by
    decide
  exact C8_event_thresholds.2 true true
    { lat := (-25, -18), lon := (-71.5, -68), zlim := (0, 200),
      time_before := 300, velocity_model := some ⟨7, 4, 2, 250⟩,
      n_picks := 10, n_p_and_s_picks := 4 }
    (fun _ _ => Except.ok ([EventRow.mk 0 0 0 0 12 5 0 0], []))
    (fun e => Except.ok e)
    [Pick.mk 0 "P" "AA.BB" 1] [StationRow.mk "AA.BB." 1 2 3]
    [EventRow.mk 0 0 0 0 12 5 0 0] [] rfl hresp hpres hfin
    (EventRow.mk 0 0 0 0 12 5 0 0) (by decide)

lemma sortPicks_sorted (l : List Pick) :
    List.Sorted (fun a b : Pick => a.time ≤ b.time) (sortPicks l) :=
  List.sorted_insertionSort _ l

lemma mem_sortPicks {l : List Pick} {p : Pick} : p ∈ sortPicks l ↔ p ∈ l :=
  (List.perm_insertionSort _ l).mem_iff

lemma phaseRunWhole_finished {classify : WStream → Except String (List CPick)}
    {stream : WStream} {ps : List Pick}
    (h : Notif.finished ps ∈ phaseRunWhole classify stream) :
    ∃ cps, classify stream = .ok cps ∧ ps = sortPicks (cps.map mkPick) := by
  unfold phaseRunWhole at h
  cases hc : classify stream with
  | error e =>
      rw [hc] at h
      simp at h
  | ok cps =>
      rw [hc] at h
      simp at h
      exact ⟨cps, rfl, h⟩

lemma chunkNotifs_shape {classify : WStream → Except String (List CPick)} {s : WStream}
    {C : ℚ} {i : ℕ} {n : Notif (List Pick)}
    (h : n ∈ chunkNotifs classify s C i) :
    (∃ m, n = Notif.status m) ∨ n = Notif.progress (((i + 1) * 100) / numChunks s C) := by
  unfold chunkNotifs at h
  dsimp only at h
  split at h
  · simp at h
    exact Or.inl ⟨_, h⟩
  · rw [List.mem_append] at h
    rcases h with h | h
    · rw [List.mem_cons] at h
      rcases h with h | h
      · exact Or.inl ⟨_, h⟩
      · split at h
        · simp at h
          exact Or.inl ⟨_, h⟩
        · rw [List.mem_cons] at h
          rcases h with h | h
          · exact Or.inl ⟨_, h⟩
          · split at h
            · simp at h
            · simp at h
              exact Or.inl ⟨_, h⟩
    · simp at h
      exact Or.inr h

lemma chunkNotifs_not_terminal {classify : WStream → Except String (List CPick)}
    {s : WStream} {C : ℚ} {i : ℕ} {n : Notif (List Pick)}
    (h : n ∈ chunkNotifs classify s C i) : n.isTerminal = false := by
  rcases chunkNotifs_shape h with ⟨m, hm⟩ | hm <;> subst hm <;> rfl

lemma phaseRunChunked_finished {classify : WStream → Except String (List CPick)}
    {s : WStream} {C : ℚ} {ps : List Pick}
    (h : Notif.finished ps ∈ phaseRunChunked classify s C) :
    ps = sortPicks (chunkAllPicks classify s C) := by
  unfold phaseRunChunked at h
  split at h
  · simp at h
  · rw [List.mem_append] at h
    rcases h with h | h
    · rw [List.mem_cons] at h
      rcases h with h | h
      · exact absurd h (by simp)
      · rw [List.mem_cons] at h
        rcases h with h | h
        · exact absurd h (by simp)
        · obtain ⟨l, hl, hn⟩ := List.mem_flatten.mp h
          obtain ⟨i, _, hli⟩ := List.mem_map.mp hl
          rw [← hli] at hn
          rcases chunkNotifs_shape hn with ⟨m, hm⟩ | hm <;> simp at hm
    · simp at h
      exact h

/-- C4: in both whole-stream and chunked mode, every pick list delivered
through the success signal is sorted ascending by pick time. -/
theorem C4_picks_sorted (classify : WStream → Except String (List CPick))
    (stream : WStream) (cm : Bool) (cs : ℚ) (ps : List Pick)
    (h : Notif.finished ps ∈ phaseDetectionRun classify stream cm cs) :
    List.Sorted (fun a b : Pick => a.time ≤ b.time) ps := by
  unfold phaseDetectionRun at h
  split at h
  · obtain ⟨cps, _, hps⟩ := phaseRunWhole_finished h
    rw [hps]
    exact sortPicks_sorted _
  · rw [phaseRunChunked_finished h]
    exact sortPicks_sorted _

/-- Witness for C4: a classifier stub returning two out-of-order picks;
the delivered list is the time-sorted one. -/
theorem C4_picks_sorted_witness :
    List.Sorted (fun a b : Pick => a.time ≤ b.time)
      (sortPicks ([CPick.mk "NN.SS.LL.CHZ" 5 "P" 1,
                   CPick.mk "NN.SS.LL.CHZ" 3 "S" 1].map mkPick)) :=
  C4_picks_sorted
    (fun _ => Except.ok [CPick.mk "NN.SS.LL.CHZ" 5 "P" 1, CPick.mk "NN.SS.LL.CHZ" 3 "S" 1])
    [] false 0 _ (by decide)

lemma chunkPicks_mem {classify : WStream → Except String (List CPick)}
    {s : WStream} {C : ℚ} {i : ℕ} {p : Pick}
    (h : p ∈ chunkPicks classify s C i) :
    ∃ cps, classify (sliceStream s (chunkStartT s C i) (chunkEndT s C i)) = .ok cps ∧
      ∃ cp ∈ cps, p = mkPick cp := by
  unfold chunkPicks at h
  dsimp only at h
  split at h
  · simp at h
  · split at h
    · rename_i cps heq
      split at h
      · simp at h
      · obtain ⟨cp, hcp, hp⟩ := List.mem_map.mp h
        exact ⟨cps, heq, cp, hcp, hp.symm⟩
    · simp at h

/-- C9: every pick delivered by the detection thread (either mode)
carries, from some classifier pick returned by a classifier call (the
whole stream, or one chunk's slice), the pick's start time as `time`,
its phase label, its peak confidence as `probability`, and as `channel`
the first two dot-separated components of the trace id joined by a
dot. -/
theorem C9_pick_fields (classify : WStream → Except String (List CPick))
    (stream : WStream) (cm : Bool) (cs : ℚ) (ps : List Pick)
    (h : Notif.finished ps ∈ phaseDetectionRun classify stream cm cs) :
    ∀ p ∈ ps, ∃ st cps, ∃ cp ∈ cps,
      classify st = .ok cps ∧
      (st = stream ∨ ∃ i < numChunks stream cs,
          st = sliceStream stream (chunkStartT stream cs i) (chunkEndT stream cs i)) ∧
      p.time = cp.start_time ∧ p.phase = cp.phase ∧ p.probability = cp.peak_value ∧
      p.channel = String.intercalate "." ((pySplitDot cp.trace_id).take 2) := by
  intro p hp
  unfold phaseDetectionRun at h
  split at h
  · obtain ⟨cps, hc, hps⟩ := phaseRunWhole_finished h
    rw [hps] at hp
    obtain ⟨cp, hcp, hmk⟩ := List.mem_map.mp (mem_sortPicks.mp hp)
    refine ⟨stream, cps, cp, hcp, hc, Or.inl rfl, ?_⟩
    rw [← hmk]
    exact ⟨rfl, rfl, rfl, rfl⟩
  · rw [phaseRunChunked_finished h] at hp
    unfold chunkAllPicks at hp
    obtain ⟨l, hl, hpl⟩ := List.mem_flatten.mp (mem_sortPicks.mp hp)
    obtain ⟨i, hi, hli⟩ := List.mem_map.mp hl
    rw [← hli] at hpl
    obtain ⟨cps, heq, cp, hcp, hmk⟩ := chunkPicks_mem hpl
    refine ⟨_, cps, cp, hcp, heq,
      Or.inr ⟨i, List.mem_range.mp hi, rfl⟩, ?_⟩
    rw [hmk]
    exact ⟨rfl, rfl, rfl, rfl⟩

/-- Witness for C9 in whole-stream mode with one classifier pick. -/
theorem C9_pick_fields_witness :
    ∃ st cps, ∃ cp ∈ cps,
      (fun _ : WStream =>
          (Except.ok [CPick.mk "NN.SS.LL.CHZ" 7 "P" 1] : Except String (List CPick))) st
        = Except.ok cps ∧
      (st = ([] : WStream) ∨ ∃ i < numChunks [] 0,
          st = sliceStream [] (chunkStartT [] 0 i) (chunkEndT [] 0 i)) ∧
      (Pick.mk 7 "P" "NN.SS" 1).time = cp.start_time ∧
      (Pick.mk 7 "P" "NN.SS" 1).phase = cp.phase ∧
      (Pick.mk 7 "P" "NN.SS" 1).probability = cp.peak_value ∧
      (Pick.mk 7 "P" "NN.SS" 1).channel
        = String.intercalate "." ((pySplitDot cp.trace_id).take 2) :=
  C9_pick_fields
    (fun _ => (Except.ok [CPick.mk "NN.SS.LL.CHZ" 7 "P" 1] : Except String (List CPick)))
    [] false 0 (sortPicks ([CPick.mk "NN.SS.LL.CHZ" 7 "P" 1].map mkPick)) (by decide)
    (Pick.mk 7 "P" "NN.SS" 1) (by decide)

/-- C3: with chunk size `C > 0` over a stream spanning `N ≥ 0` seconds,
the chunk loop makes exactly `⌈N/C⌉` attempts; windows are consecutive
and non-overlapping; every non-final window lasts exactly `C`; the final
window lasts `C` when `N` is an exact multiple of `C` and `N mod C`
otherwise; and a window that is invalid (`end ≤ start`) or whose slice
is empty contributes zero picks, is noted with a status message, and
never terminates the run. -/
theorem C3_chunk_layout (classify : WStream → Except String (List CPick))
    (s : WStream) (C : ℚ) (hC : 0 < C) (hN : 0 ≤ totalDuration s) :
    ((numChunks s C : ℤ) = ⌈totalDuration s / C⌉) ∧
    (∀ i : ℕ, chunkStartT s C (i + 1) = chunkStartT s C i + C ∧
        chunkEndT s C i ≤ chunkStartT s C (i + 1)) ∧
    (∀ i : ℕ, i + 1 < numChunks s C →
        chunkEndT s C i - chunkStartT s C i = C) ∧
    (0 < numChunks s C → (∃ k : ℤ, totalDuration s = k * C) →
        chunkEndT s C (numChunks s C - 1) - chunkStartT s C (numChunks s C - 1) = C) ∧
    (0 < numChunks s C → (¬ ∃ k : ℤ, totalDuration s = k * C) →
        chunkEndT s C (numChunks s C - 1) - chunkStartT s C (numChunks s C - 1)
          = ratMod (totalDuration s) C) ∧
    (∀ i : ℕ, (chunkEndT s C i ≤ chunkStartT s C i ∨
          (sliceStream s (chunkStartT s C i) (chunkEndT s C i)).length = 0) →
        chunkPicks classify s C i = [] ∧
        (∃ m, Notif.status m ∈ chunkNotifs classify s C i) ∧
        ∀ n ∈ chunkNotifs classify s C i, n.isTerminal = false) := by
  have hnum : (numChunks s C : ℤ) = ⌈totalDuration s / C⌉ := by
    unfold numChunks
    exact Int.toNat_of_nonneg (Int.ceil_nonneg (div_nonneg hN hC.le))
  have hstep : ∀ i : ℕ, chunkStartT s C (i + 1) = chunkStartT s C i + C := by
    intro i
    unfold chunkStartT
    push_cast
    ring
  have hNle : totalDuration s ≤ (numChunks s C : ℚ) * C := by
    have h1 : totalDuration s / C ≤ (⌈totalDuration s / C⌉ : ℚ) := Int.le_ceil _
    have h2 : ((numChunks s C : ℤ) : ℚ) = (⌈totalDuration s / C⌉ : ℚ) := by
      exact_mod_cast hnum
    rw [div_le_iff₀ hC] at h1
    push_cast at h2 ⊢
    rw [h2]
    exact h1
  refine ⟨hnum, ?_, ?_, ?_, ?_, ?_⟩
  · intro i
    refine ⟨hstep i, ?_⟩
    rw [hstep i]
    exact min_le_left _ _
  · intro i hi
    have h1 : ((i : ℤ) + 1) < ⌈totalDuration s / C⌉ := by
      rw [← hnum]
      exact_mod_cast hi
    have h2 : ((i : ℚ) + 1) < totalDuration s / C := by
      have hceil := Int.ceil_lt_add_one (totalDuration s / C)
      have h3 : ((i : ℚ) + 1) + 1 ≤ (⌈totalDuration s / C⌉ : ℚ) := by
        exact_mod_cast h1
      linarith
    have h3 : ((i : ℚ) + 1) * C < totalDuration s := (lt_div_iff₀ hC).mp h2
    have h4 : (i : ℚ) * C + C < streamEnd s - streamStart s := by
      have h5 := h3
      rw [add_mul, one_mul] at h5
      exact h5
    have hle : chunkStartT s C i + C ≤ streamEnd s := by
      unfold chunkStartT
      linarith
    unfold chunkEndT
    rw [min_eq_left hle]
    ring
  · intro hpos ⟨k, hk⟩
    have hkC : totalDuration s / C = (k : ℚ) := by
      rw [hk]
      field_simp
    have hceil : ⌈totalDuration s / C⌉ = k := by
      rw [hkC]
      exact Int.ceil_intCast k
    have hnumk : (numChunks s C : ℤ) = k := by rw [hnum, hceil]
    have hcast : ((numChunks s C - 1 : ℕ) : ℚ) = (k : ℚ) - 1 := by
      have h1 : ((numChunks s C - 1 : ℕ) : ℤ) = (numChunks s C : ℤ) - 1 := by
        omega
      have h2 : ((numChunks s C - 1 : ℕ) : ℤ) = k - 1 := by rw [h1, hnumk]
      exact_mod_cast congrArg (fun z : ℤ => (z : ℚ)) h2
    have hend : streamEnd s ≤ chunkStartT s C (numChunks s C - 1) + C := by
      unfold chunkStartT
      rw [hcast]
      have h6 : totalDuration s ≤ (numChunks s C : ℚ) * C := hNle
      have h7 : ((numChunks s C : ℕ) : ℚ) = (k : ℚ) := by exact_mod_cast hnumk
      rw [h7] at h6
      have h8 : streamEnd s - streamStart s ≤ (k : ℚ) * C := h6
      have h9 : ((k : ℚ) - 1) * C + C = (k : ℚ) * C := by ring
      linarith
    unfold chunkEndT
    rw [min_eq_right hend]
    unfold chunkStartT
    rw [hcast]
    have h10 : streamEnd s - streamStart s = (k : ℚ) * C := hk
    nlinarith [h10]
  · intro hpos hnk
    have hfl : (⌊totalDuration s / C⌋ : ℚ) < totalDuration s / C := by
      rcases lt_or_eq_of_le (Int.floor_le (totalDuration s / C)) with h1 | h1
      · exact h1
      · exfalso
        apply hnk
        refine ⟨⌊totalDuration s / C⌋, ?_⟩
        have h2 : totalDuration s / C * C = totalDuration s := div_mul_cancel₀ _ hC.ne.symm
        rw [← h1] at h2
        exact h2.symm
    have hceil : ⌈totalDuration s / C⌉ = ⌊totalDuration s / C⌋ + 1 := by
      rw [Int.ceil_eq_iff]
      constructor
      · push_cast
        linarith
      · push_cast
        exact (Int.lt_floor_add_one _).le
    have hnumk : (numChunks s C : ℤ) = ⌊totalDuration s / C⌋ + 1 := by rw [hnum, hceil]
    have hcast : ((numChunks s C - 1 : ℕ) : ℚ) = ((⌊totalDuration s / C⌋ : ℤ) : ℚ) := by
      have h1 : ((numChunks s C - 1 : ℕ) : ℤ) = ⌊totalDuration s / C⌋ := by omega
      exact_mod_cast congrArg (fun z : ℤ => (z : ℚ)) h1
    have hend : streamEnd s ≤ chunkStartT s C (numChunks s C - 1) + C := by
      unfold chunkStartT
      rw [hcast]
      have h6 := hNle
      have h7 : ((numChunks s C : ℕ) : ℚ) = ((⌊totalDuration s / C⌋ : ℤ) : ℚ) + 1 := by
        exact_mod_cast hnumk
      rw [h7] at h6
      have h8 : streamEnd s - streamStart s ≤ (((⌊totalDuration s / C⌋ : ℤ) : ℚ) + 1) * C :=
        h6
      nlinarith [h8]
    unfold chunkEndT
    rw [min_eq_right hend]
    unfold chunkStartT ratMod
    rw [hcast]
    have hddef : streamEnd s - streamStart s = totalDuration s := rfl
    nlinarith [hddef]
  · intro i hcond
    refine ⟨?_, ?_, fun n hn => chunkNotifs_not_terminal hn⟩
    · unfold chunkPicks
      dsimp only
      rcases hcond with hcond | hcond
      · rw [if_pos hcond]
      · split <;> first | rfl | (split <;> first | rfl | simp [hcond])
    · rcases hcond with hcond | hcond
      · refine ⟨"跳过无效时间块", ?_⟩
        unfold chunkNotifs
        dsimp only
        rw [if_pos hcond]
        simp
      · unfold chunkNotifs
        dsimp only
        split
        · exact ⟨"跳过无效时间块", by simp⟩
        · exact ⟨"处理时间块", by simp⟩

/-- Witness for C3: a 1500 s stream with 600 s chunks (the spec's
25-minute / 10-minute scenario, in seconds). -/
theorem C3_chunk_layout_witness :
    ((numChunks [Trace.mk "NN.SS.L.C" 0 1500 100] 600 : ℤ)
        = ⌈totalDuration [Trace.mk "NN.SS.L.C" 0 1500 100] / 600⌉) ∧
    (∀ i : ℕ, chunkStartT [Trace.mk "NN.SS.L.C" 0 1500 100] 600 (i + 1)
          = chunkStartT [Trace.mk "NN.SS.L.C" 0 1500 100] 600 i + 600 ∧
        chunkEndT [Trace.mk "NN.SS.L.C" 0 1500 100] 600 i
          ≤ chunkStartT [Trace.mk "NN.SS.L.C" 0 1500 100] 600 (i + 1)) ∧
    (∀ i : ℕ, i + 1 < numChunks [Trace.mk "NN.SS.L.C" 0 1500 100] 600 →
        chunkEndT [Trace.mk "NN.SS.L.C" 0 1500 100] 600 i
          - chunkStartT [Trace.mk "NN.SS.L.C" 0 1500 100] 600 i = 600) ∧
    (0 < numChunks [Trace.mk "NN.SS.L.C" 0 1500 100] 600 →
      (∃ k : ℤ, totalDuration [Trace.mk "NN.SS.L.C" 0 1500 100] = k * 600) →
        chunkEndT [Trace.mk "NN.SS.L.C" 0 1500 100] 600
            (numChunks [Trace.mk "NN.SS.L.C" 0 1500 100] 600 - 1)
          - chunkStartT [Trace.mk "NN.SS.L.C" 0 1500 100] 600
            (numChunks [Trace.mk "NN.SS.L.C" 0 1500 100] 600 - 1) = 600) ∧
    (0 < numChunks [Trace.mk "NN.SS.L.C" 0 1500 100] 600 →
      (¬ ∃ k : ℤ, totalDuration [Trace.mk "NN.SS.L.C" 0 1500 100] = k * 600) →
        chunkEndT [Trace.mk "NN.SS.L.C" 0 1500 100] 600
            (numChunks [Trace.mk "NN.SS.L.C" 0 1500 100] 600 - 1)
          - chunkStartT [Trace.mk "NN.SS.L.C" 0 1500 100] 600
            (numChunks [Trace.mk "NN.SS.L.C" 0 1500 100] 600 - 1)
          = ratMod (totalDuration [Trace.mk "NN.SS.L.C" 0 1500 100]) 600) ∧
    (∀ i : ℕ, (chunkEndT [Trace.mk "NN.SS.L.C" 0 1500 100] 600 i
          ≤ chunkStartT [Trace.mk "NN.SS.L.C" 0 1500 100] 600 i ∨
        (sliceStream [Trace.mk "NN.SS.L.C" 0 1500 100]
            (chunkStartT [Trace.mk "NN.SS.L.C" 0 1500 100] 600 i)
            (chunkEndT [Trace.mk "NN.SS.L.C" 0 1500 100] 600 i)).length = 0) →
        chunkPicks (fun _ => Except.ok []) [Trace.mk "NN.SS.L.C" 0 1500 100] 600 i = [] ∧
        (∃ m, Notif.status m ∈
          chunkNotifs (fun _ => Except.ok []) [Trace.mk "NN.SS.L.C" 0 1500 100] 600 i) ∧
        ∀ n ∈ chunkNotifs (fun _ => Except.ok []) [Trace.mk "NN.SS.L.C" 0 1500 100] 600 i,
          n.isTerminal = false) :=
  C3_chunk_layout (fun _ => Except.ok []) [Trace.mk "NN.SS.L.C" 0 1500 100] 600
    (by norm_num) (by norm_num [totalDuration, streamEnd, streamStart])

lemma getLast?_append_pair {α : Type} (l : List α) (a b : α) :
    (l ++ [a, b]).getLast? = some b := by
  rw [show [a, b] = [a] ++ [b] from rfl, ← List.append_assoc]
  simp

/-- C6: in chunked mode a classifier exception in one chunk is caught by
the per-chunk handler: that chunk contributes no picks, the exception is
reported only as a status message, nothing terminal is emitted for it,
and the run still ends with the success signal carrying the sorted
accumulated picks of the non-failing chunks. -/
theorem C6_chunk_error_isolated (classify : WStream → Except String (List CPick))
    (s : WStream) (C : ℚ) (hne : s.length ≠ 0) :
    (phaseRunChunked classify s C).getLast?
        = some (Notif.finished (sortPicks (chunkAllPicks classify s C))) ∧
    (∀ m, Notif.error m ∉ phaseRunChunked classify s C) ∧
    (∀ i e, classify (sliceStream s (chunkStartT s C i) (chunkEndT s C i))
          = .error e →
        chunkPicks classify s C i = [] ∧
        (¬ chunkEndT s C i ≤ chunkStartT s C i →
          (sliceStream s (chunkStartT s C i) (chunkEndT s C i)).length ≠ 0 →
          Notif.status ("处理块时出错: " ++ e ++ "，跳过此块")
            ∈ chunkNotifs classify s C i) ∧
        ∀ n ∈ chunkNotifs classify s C i, n.isTerminal = false) := by
  refine ⟨?_, ?_, ?_⟩
  · unfold phaseRunChunked
    rw [if_neg hne]
    exact getLast?_append_pair _ _ _
  · intro m hm
    unfold phaseRunChunked at hm
    rw [if_neg hne] at hm
    rw [List.mem_append] at hm
    rcases hm with hm | hm
    · rw [List.mem_cons] at hm
      rcases hm with hm | hm
      · exact absurd hm (by simp)
      · rw [List.mem_cons] at hm
        rcases hm with hm | hm
        · exact absurd hm (by simp)
        · obtain ⟨l, hl, hn⟩ := List.mem_flatten.mp hm
          obtain ⟨i, _, hli⟩ := List.mem_map.mp hl
          rw [← hli] at hn
          rcases chunkNotifs_shape hn with ⟨m', hm'⟩ | hm' <;> simp at hm'
    · simp at hm
  · intro i e heq
    refine ⟨?_, ?_, fun n hn => chunkNotifs_not_terminal hn⟩
    · unfold chunkPicks
      dsimp only
      split
      · rfl
      · rw [heq]
    · intro hinv hlen
      unfold chunkNotifs
      dsimp only
      rw [if_neg hinv]
      rw [if_neg hlen]
      rw [heq]
      simp

/-- Witness for C6: a two-chunk stream whose classifier always raises;
the run still ends with success carrying the empty pick list. -/
theorem C6_chunk_error_isolated_witness :
    (phaseRunChunked (fun _ => Except.error "boom")
        [Trace.mk "NN.SS.L.C" 0 100 100] 60).getLast?
      = some (Notif.finished (sortPicks
          (chunkAllPicks (fun _ => Except.error "boom")
            [Trace.mk "NN.SS.L.C" 0 100 100] 60))) ∧
    (∀ m, Notif.error m ∉ phaseRunChunked (fun _ => Except.error "boom")
        [Trace.mk "NN.SS.L.C" 0 100 100] 60) ∧
    (∀ i e, (fun _ : WStream =>
          (Except.error "boom" : Except String (List CPick)))
          (sliceStream [Trace.mk "NN.SS.L.C" 0 100 100]
            (chunkStartT [Trace.mk "NN.SS.L.C" 0 100 100] 60 i)
            (chunkEndT [Trace.mk "NN.SS.L.C" 0 100 100] 60 i)) = .error e →
        chunkPicks (fun _ => Except.error "boom")
          [Trace.mk "NN.SS.L.C" 0 100 100] 60 i = [] ∧
        (¬ chunkEndT [Trace.mk "NN.SS.L.C" 0 100 100] 60 i
            ≤ chunkStartT [Trace.mk "NN.SS.L.C" 0 100 100] 60 i →
          (sliceStream [Trace.mk "NN.SS.L.C" 0 100 100]
            (chunkStartT [Trace.mk "NN.SS.L.C" 0 100 100] 60 i)
            (chunkEndT [Trace.mk "NN.SS.L.C" 0 100 100] 60 i)).length ≠ 0 →
          Notif.status ("处理块时出错: " ++ e ++ "，跳过此块")
            ∈ chunkNotifs (fun _ => Except.error "boom")
                [Trace.mk "NN.SS.L.C" 0 100 100] 60 i) ∧
        ∀ n ∈ chunkNotifs (fun _ => Except.error "boom")
            [Trace.mk "NN.SS.L.C" 0 100 100] 60 i,
          n.isTerminal = false) :=
  C6_chunk_error_isolated (fun _ => Except.error "boom")
    [Trace.mk "NN.SS.L.C" 0 100 100] 60 (by decide)

lemma progressList_append {α : Type} (a b : List (Notif α)) :
    progressList (a ++ b) = progressList a ++ progressList b :=
  List.filterMap_append _ _ _

lemma progressList_cons_status {α : Type} (m : String) (l : List (Notif α)) :
    progressList (Notif.status m :: l) = progressList l := rfl

lemma progressList_cons_progress {α : Type} (q : ℕ) (l : List (Notif α)) :
    progressList (Notif.progress q :: l) = q :: progressList l := rfl

lemma progressList_flatten {α : Type} (L : List (List (Notif α))) :
    progressList L.flatten = (L.map progressList).flatten := by
  induction L with
  | nil => rfl
  | cons h t ih =>
      rw [List.flatten_cons, progressList_append, ih, List.map_cons, List.flatten_cons]

lemma progressList_map_progress {α : Type} (f : ℕ → ℕ) (l : List ℕ) :
    progressList ((l.map fun i => Notif.progress (α := α) (f i))) = l.map f := by
  induction l with
  | nil => rfl
  | cons a t ih =>
      rw [List.map_cons, progressList_cons_progress, ih, List.map_cons]

lemma sorted_map_range {p : ℕ → ℕ} (hp : Monotone p) (n : ℕ) :
    List.Sorted (· ≤ ·) ((List.range n).map p) :=
  List.pairwise_map.mpr ((List.pairwise_lt_range n).imp fun h => hp h.le)

lemma flatten_map_sublist {α : Type} (f g : ℕ → List α) (l : List ℕ)
    (h : ∀ i ∈ l, (f i).Sublist (g i)) :
    ((l.map f).flatten).Sublist ((l.map g).flatten) := by
  induction l with
  | nil => simp
  | cons a tl ih =>
      rw [List.map_cons, List.flatten_cons, List.map_cons, List.flatten_cons]
      exact (h a (List.mem_cons_self a tl)).append
        (ih fun i hi => h i (List.mem_cons_of_mem a hi))

lemma flatten_map_singleton {α : Type} (p : ℕ → α) (l : List ℕ) :
    (l.map fun i => [p i]).flatten = l.map p := by
  induction l with
  | nil => rfl
  | cons a tl ih => simp [ih]

lemma progressList_chunkNotifs_sublist (classify : WStream → Except String (List CPick))
    (s : WStream) (C : ℚ) (i : ℕ) :
    (progressList (chunkNotifs classify s C i)).Sublist
      [((i + 1) * 100) / numChunks s C] := by
  unfold chunkNotifs
  dsimp only
  split
  · simp [progressList]
  · rw [progressList_append, progressList_cons_status]
    have hinner : ∀ l : List (Notif (List Pick)),
        (∀ n ∈ l, ∃ m, n = Notif.status m) → progressList l = [] := by
      intro l hl
      induction l with
      | nil => rfl
      | cons x xs ih =>
          obtain ⟨m, hm⟩ := hl x (List.mem_cons_self x xs)
          rw [hm, progressList_cons_status]
          exact ih fun n hn => hl n (List.mem_cons_of_mem x hn)
    rw [hinner]
    · simp [progressList]
    · intro n hn
      split at hn
      · simp at hn
        exact ⟨_, hn⟩
      · rw [List.mem_cons] at hn
        rcases hn with hn | hn
        · exact ⟨_, hn⟩
        · split at hn
          · simp at hn
          · simp at hn
            exact ⟨_, hn⟩

lemma filter_isTerminal_chunk_flatten (classify : WStream → Except String (List CPick))
    (s : WStream) (C : ℚ) :
    ((((List.range (numChunks s C)).map (chunkNotifs classify s C)).flatten).filter
        fun n => n.isTerminal) = [] := by
  apply List.filter_eq_nil_iff.mpr
  intro n hn
  obtain ⟨l, hl, hnl⟩ := List.mem_flatten.mp hn
  obtain ⟨i, _, hli⟩ := List.mem_map.mp hl
  rw [← hli] at hnl
  simp [chunkNotifs_not_terminal hnl]

lemma getLast?_append_single {α : Type} (l : List α) (x : α) :
    (l ++ [x]).getLast? = some x := by simp

lemma getLast?_cons_append_pair {α : Type} (x : α) (l : List α) (a b : α) :
    (x :: (l ++ [a, b])).getLast? = some b := by
  have h : x :: (l ++ [a, b]) = (x :: (l ++ [a])) ++ [b] := by simp
  rw [h]
  exact getLast?_append_single _ _

lemma waveformLoadRun_wellOrdered (env : LoadEnv) (hw : Bool) :
    WellOrderedNotifs (waveformLoadRun env hw).notifs := by
  unfold WellOrderedNotifs waveformLoadRun
  cases env.readResult with
  | error e =>
      exact ⟨(by decide : List.Sorted (· ≤ ·) ([10] : List ℕ)), rfl,
        ⟨Notif.error e, rfl, rfl⟩⟩
  | ok stream =>
      cases stream with
      | nil =>
          exact ⟨(by decide : List.Sorted (· ≤ ·) ([10, 50] : List ℕ)), rfl,
            ⟨Notif.error "list index out of range", rfl, rfl⟩⟩
      | cons tr rest =>
          cases env.filterRaises with
          | some e =>
              exact ⟨(by decide : List.Sorted (· ≤ ·) ([10, 50] : List ℕ)), rfl,
                ⟨Notif.error e, rfl, rfl⟩⟩
          | none =>
              exact ⟨(by decide : List.Sorted (· ≤ ·) ([10, 50, 100] : List ℕ)), rfl,
                ⟨Notif.finished (tr :: rest), rfl, rfl⟩⟩

lemma wholeProgress_monotone (total : ℕ) : Monotone (wholeProgress total) := by
  intro a b hab
  unfold wholeProgress
  exact Nat.div_le_div_right (Nat.mul_le_mul_right 100 (by omega))

lemma phaseRunWhole_wellOrdered (classify : WStream → Except String (List CPick))
    (stream : WStream) :
    WellOrderedNotifs (phaseRunWhole classify stream) := by
  unfold WellOrderedNotifs phaseRunWhole
  cases hc : classify stream with
  | error e =>
      exact ⟨(by decide : List.Sorted (· ≤ ·) ([] : List ℕ)), rfl,
        ⟨Notif.error e, rfl, rfl⟩⟩
  | ok cps =>
      refine ⟨?_, ?_, ⟨Notif.finished (sortPicks (cps.map mkPick)),
        getLast?_cons_append_pair _ _ _ _, rfl⟩⟩
      · rw [progressList_cons_status, progressList_append, progressList_map_progress]
        have h2 : progressList (α := List Pick)
            [Notif.status "检测完成，共找到相位", Notif.finished (sortPicks (cps.map mkPick))]
            = [] := rfl
        rw [h2, List.append_nil]
        exact sorted_map_range (wholeProgress_monotone cps.length) cps.length
      · rw [List.filter_cons_of_neg (by simp [Notif.isTerminal]), List.filter_append]
        have h1 : (((List.range cps.length).map fun i =>
            Notif.progress (α := List Pick) (wholeProgress cps.length i)).filter
              fun n => n.isTerminal) = [] := by
          apply List.filter_eq_nil_iff.mpr
          intro n hn
          obtain ⟨i, _, hi⟩ := List.mem_map.mp hn
          simp [← hi, Notif.isTerminal]
        rw [h1]
        rfl

lemma chunkProgress_monotone (num : ℕ) : Monotone (fun i => ((i + 1) * 100) / num) := by
  intro a b hab
  exact Nat.div_le_div_right (Nat.mul_le_mul_right 100 (by omega))

lemma phaseRunChunked_wellOrdered (classify : WStream → Except String (List CPick))
    (s : WStream) (C : ℚ) :
    WellOrderedNotifs (phaseRunChunked classify s C) := by
  unfold WellOrderedNotifs phaseRunChunked
  split
  · exact ⟨(by decide : List.Sorted (· ≤ ·) ([] : List ℕ)), rfl,
      ⟨Notif.error "波形数据为空，无法进行分块处理", rfl, rfl⟩⟩
  · refine ⟨?_, ?_, ⟨Notif.finished (sortPicks (chunkAllPicks classify s C)),
      getLast?_append_pair _ _ _, rfl⟩⟩
    · rw [progressList_append, progressList_cons_status, progressList_cons_status,
        progressList_flatten, List.map_map]
      have h2 : progressList (α := List Pick)
          [Notif.status "检测完成，共找到相位",
           Notif.finished (sortPicks (chunkAllPicks classify s C))] = [] := rfl
      rw [h2, List.append_nil]
      have hsub : (((List.range (numChunks s C)).map
            (progressList ∘ chunkNotifs classify s C)).flatten).Sublist
          ((List.range (numChunks s C)).map fun i => ((i + 1) * 100) / numChunks s C) := by
        rw [← flatten_map_singleton (fun i => ((i + 1) * 100) / numChunks s C)
          (List.range (numChunks s C))]
        exact flatten_map_sublist _ _ _
          fun i _ => progressList_chunkNotifs_sublist classify s C i
      exact (sorted_map_range (chunkProgress_monotone (numChunks s C))
        (numChunks s C)).sublist hsub
    · rw [List.filter_append]
      have h1 : ((Notif.status (α := List Pick) "准备分块处理..." ::
          Notif.status "将分块进行处理..." ::
          ((List.range (numChunks s C)).map (chunkNotifs classify s C)).flatten).filter
            fun n => n.isTerminal) = [] := by
        rw [List.filter_cons_of_neg (by simp [Notif.isTerminal]),
          List.filter_cons_of_neg (by simp [Notif.isTerminal])]
        exact filter_isTerminal_chunk_flatten classify s C
      rw [h1]
      rfl

lemma phaseDetectionRun_wellOrdered (classify : WStream → Except String (List CPick))
    (stream : WStream) (cm : Bool) (cs : ℚ) :
    WellOrderedNotifs (phaseDetectionRun classify stream cm cs) := by
  unfold phaseDetectionRun
  split
  · exact phaseRunWhole_wellOrdered classify stream
  · exact phaseRunChunked_wellOrdered classify stream cs

lemma assocRun_wellOrdered
    (a : List PickRow → StationDF → Except String (List EventRow × List AssignRow))
    (t : List EventRow → Except String (List EventRow))
    (picks : List Pick) (sdf : StationDF) :
    WellOrderedNotifs (assocRun a t picks sdf).notifs := by
  unfold WellOrderedNotifs assocRun
  split
  · exact ⟨(by decide : List.Sorted (· ≤ ·) ([10, 20] : List ℕ)), rfl,
      ⟨Notif.error "list index out of range", rfl, rfl⟩⟩
  · dsimp only
    split
    · exact ⟨(by decide : List.Sorted (· ≤ ·) ([10, 20] : List ℕ)), rfl,
        ⟨Notif.error "所有拾取都被过滤掉了，没有拾取与台站信息匹配", rfl, rfl⟩⟩
    · split
      · rename_i e heq
        exact ⟨(by decide : List.Sorted (· ≤ ·) ([10, 20, 30] : List ℕ)), rfl,
          ⟨Notif.error e, rfl, rfl⟩⟩
      · rename_i res events_df assignments_df heq
        split
        · split
          · rename_i e heq2
            exact ⟨(by decide : List.Sorted (· ≤ ·) ([10, 20, 30, 80] : List ℕ)), rfl,
              ⟨Notif.error e, rfl, rfl⟩⟩
          · rename_i events2 heq2
            exact ⟨(by decide : List.Sorted (· ≤ ·) ([10, 20, 30, 80, 100] : List ℕ)), rfl,
              ⟨Notif.finished (events2, assignments_df), rfl, rfl⟩⟩
        · exact ⟨(by decide : List.Sorted (· ≤ ·) ([10, 20, 30, 80, 100] : List ℕ)), rfl,
            ⟨Notif.finished (events_df, assignments_df), rfl, rfl⟩⟩

/-- C7: for every execution of the waveform-loading, phase-detection and
event-association background tasks, the emitted progress percentages are
non-decreasing, exactly one terminal notification (success or failure)
is emitted, and it is the last notification — nothing follows it. -/
theorem C7_notification_ordering :
    (∀ (env : LoadEnv) (hw : Bool),
        WellOrderedNotifs (waveformLoadRun env hw).notifs) ∧
    (∀ (classify : WStream → Except String (List CPick)) (stream : WStream)
        (cm : Bool) (cs : ℚ),
        WellOrderedNotifs (phaseDetectionRun classify stream cm cs)) ∧
    (∀ (a : List PickRow → StationDF → Except String (List EventRow × List AssignRow))
        (t : List EventRow → Except String (List EventRow))
        (picks : List Pick) (sdf : StationDF),
        WellOrderedNotifs (assocRun a t picks sdf).notifs) :=
  ⟨waveformLoadRun_wellOrdered, phaseDetectionRun_wellOrdered, assocRun_wellOrdered⟩
